import Mathlib

/-!
# Verification of the VideoShare backend deletion cascade and task controller

Shallow embedding of the repository's server code:

* the account-deletion cascade (`app.delete('/api/account')`),
* the single-video deletion (`app.delete('/api/videos/:id')`),
* the flat-file task controller (`readTasks`, `getTasks`, `updateTask`).

Relational state (the `users` and `videos` SQLite tables) and the blob store
(the `uploads/` directory) are modelled explicitly; SQL statements become list
operations on that state.  Environmental nondeterminism that the code reacts
to — an `fs.unlinkSync` throwing an I/O error, the `COMMIT` statement failing —
is injected through a `Faults` record.  Each handler also produces an event
trace so that ordering properties (blob deletion happens inside the unit of
work, before the row deletes and the commit) can be stated.
-/

/-- A row of the `videos` table (`CREATE TABLE videos ...` in the server).
`video_type` is `"file"` for uploaded blobs and `"link"` for external URLs;
`video_url` is the content locator (a path fragment for files). -/
structure Video where
  id : Nat
  title : String
  description : String
  video_url : String
  video_type : String
  user_id : Nat
deriving Repr, DecidableEq

/-- Combined durable state: the `users` table (modelled by the list of account
ids, the only column the deletion cascade inspects), the `videos` table, and
the blob store (set of locators present on disk, as a list). -/
structure St where
  users : List Nat
  videos : List Video
  files : List String
deriving Repr, DecidableEq

/-- Environmental faults the code reacts to: locators for which
`fs.unlinkSync` throws an I/O error (caught by the code), and whether the
SQL `COMMIT` fails. -/
structure Faults where
  unlinkFails : List String
  commitFails : Bool
deriving Repr, DecidableEq

/-- Events recorded by a handler invocation, in execution order. -/
inductive Ev where
  /-- `BEGIN TRANSACTION` -/
  | beginTx
  /-- `SELECT * FROM videos WHERE user_id = ?` -/
  | fetchVideos (userId : Nat)
  /-- the handler entered the blob-removal branch for this locator
      (`video_type === 'file' && video_url` held; `existsSync`/`unlinkSync`) -/
  | blobDelete (locator : String)
  /-- `fs.unlinkSync` succeeded for this locator (`filesDeleted++`) -/
  | blobUnlinked (locator : String)
  /-- `DELETE FROM videos WHERE user_id = ?` -/
  | deleteVideoRows (userId : Nat)
  /-- `DELETE FROM users WHERE id = ?` -/
  | deleteUserRow (userId : Nat)
  /-- `COMMIT` was issued -/
  | commit
  /-- `ROLLBACK` was issued -/
  | rollback
deriving Repr, DecidableEq

/-- An HTTP response as far as the claims are concerned: the status code and,
on successful account deletion, the `details` counts. -/
structure Resp where
  status : Nat
  videosDeleted : Option Nat := none
  filesDeleted : Option Nat := none
deriving Repr, DecidableEq

/-- Is an event one of the two blob-store events? -/
def Ev.isBlobEv : Ev → Bool
  | .blobDelete _ => true
  | .blobUnlinked _ => true
  | _ => false

/-- The blob-removal branch both delete handlers run for one video:
```js
if (video.video_type === 'file' && video.video_url) {
  const filePath = path.join(__dirname, video.video_url);
  if (fs.existsSync(filePath)) {
    try { fs.unlinkSync(filePath); filesDeleted++; } catch (fileError) { ... }
  }
}
```
Returns the new blob store, the increment of `filesDeleted` (0 or 1) and the
emitted events.  `video_url` truthiness is the `≠ ""` test; a locator in
`f.unlinkFails` makes `unlinkSync` throw, which the code catches. -/
def deleteBlobForVideo (f : Faults) (v : Video) (files : List String) :
    List String × Nat × List Ev :=
  if v.video_type = "file" ∧ v.video_url ≠ "" then
    if v.video_url ∈ files then
      if v.video_url ∈ f.unlinkFails then
        (files, 0, [Ev.blobDelete v.video_url])
      else
        (files.filter (fun p => p ≠ v.video_url), 1,
         [Ev.blobDelete v.video_url, Ev.blobUnlinked v.video_url])
    else
      (files, 0, [Ev.blobDelete v.video_url])
  else
    (files, 0, [])

/-- The `videos.forEach(video => ...)` loop of the account handler, threading
the blob store and accumulating `filesDeleted` and the events. -/
def deleteBlobs (f : Faults) : List Video → List String → List String × Nat × List Ev
  | [], files => (files, 0, [])
  | v :: vs, files =>
    let r1 := deleteBlobForVideo f v files
    let r2 := deleteBlobs f vs r1.1
    (r2.1, r1.2.1 + r2.2.1, r1.2.2 ++ r2.2.2)

/-- `app.delete('/api/account')`: inside `BEGIN TRANSACTION`, fetch the
actor's videos, delete their blobs best-effort, `DELETE FROM videos WHERE
user_id`, `DELETE FROM users WHERE id` (0 rows affected → `ROLLBACK`, 404),
then `COMMIT` (failure → `ROLLBACK`, 500).  Rollback restores the relational
tables but never the blob store.  On success the response carries
`{videosDeleted: videos.length, filesDeleted}`. -/
def deleteAccount (f : Faults) (userId : Nat) (σ : St) : Resp × St × List Ev :=
  let vids := σ.videos.filter (fun v => v.user_id == userId)
  let blobRes := deleteBlobs f vids σ.files
  let videosAfter := σ.videos.filter (fun v => !(v.user_id == userId))
  let userChanges := (σ.users.filter (fun u => u == userId)).length
  let pre := [Ev.beginTx, Ev.fetchVideos userId] ++ blobRes.2.2 ++
    [Ev.deleteVideoRows userId, Ev.deleteUserRow userId]
  if userChanges = 0 then
    ({ status := 404 }, { σ with files := blobRes.1 }, pre ++ [Ev.rollback])
  else if f.commitFails then
    ({ status := 500 }, { σ with files := blobRes.1 }, pre ++ [Ev.commit, Ev.rollback])
  else
    ({ status := 200, videosDeleted := some vids.length,
       filesDeleted := some blobRes.2.1 },
     { users := σ.users.filter (fun u => !(u == userId)), videos := videosAfter,
       files := blobRes.1 },
     pre ++ [Ev.commit])

/-- `db.get('SELECT * FROM videos WHERE id = ?')`: first row with this id. -/
def findVideo (videos : List Video) (vid : Nat) : Option Video :=
  videos.find? (fun v => v.id == vid)

/-- `app.delete('/api/videos/:id')`: fetch the video (absent → 404), check
ownership (`video.user_id !== userId` → 403), run the blob-removal branch,
then `DELETE FROM videos WHERE id = ?` (0 rows affected → 404, else 200).
No transaction wraps this handler. -/
def deleteVideo (f : Faults) (userId vid : Nat) (σ : St) : Resp × St × List Ev :=
  match findVideo σ.videos vid with
  | none => ({ status := 404 }, σ, [])
  | some video =>
    if video.user_id ≠ userId then
      ({ status := 403 }, σ, [])
    else
      let blobRes := deleteBlobForVideo f video σ.files
      let changes := (σ.videos.filter (fun v => v.id == vid)).length
      if changes = 0 then
        ({ status := 404 }, { σ with files := blobRes.1 }, blobRes.2.2)
      else
        ({ status := 200 },
         { σ with videos := σ.videos.filter (fun v => !(v.id == vid)),
                  files := blobRes.1 },
         blobRes.2.2)

/-! ## TaskItem controller (`taskController.js`) -/

/-- A task object as stored in `tasks.json`. -/
structure TaskItem where
  id : String
  text : String
  completed : Bool
  createdAt : String
  updatedAt : String
deriving Repr, DecidableEq

/-- The state of the `tasks.json` file: absent (`readFileSync` throws) or
present with raw contents. -/
inductive TasksFile where
  | absent
  | content (raw : String)
deriving Repr, DecidableEq

/-- `readTasks`: read the file and `JSON.parse` it; any failure (missing file,
unparsable contents) is caught and yields `[]`.  The JSON parser is abstracted
as a parameter; `parse raw = none` models a `JSON.parse` exception. -/
def readTasks (parse : String → Option (List TaskItem)) : TasksFile → List TaskItem
  | .absent => []
  | .content raw => (parse raw).getD []

/-- `getTasks`: responds with `res.json(readTasks())`; its `catch` branch
would answer 500, but `readTasks` never throws. -/
def getTasks (parse : String → Option (List TaskItem)) (file : TasksFile) :
    Nat × List TaskItem :=
  (200, readTasks parse file)

/-- The in-place mutation `updateTask` performs on the found task: overwrite
`text` with the trimmed request text when supplied, overwrite `completed`
when supplied, and stamp `updatedAt`. -/
def applyUpdate (now : String) (text? : Option String) (completed? : Option Bool)
    (t : TaskItem) : TaskItem :=
  let t1 := match text? with
    | some s => { t with text := s.trim }
    | none => t
  let t2 := match completed? with
    | some c => { t1 with completed := c }
    | none => t1
  { t2 with updatedAt := now }

/-- `tasks.findIndex` followed by mutating `tasks[taskIndex]`: rewrite the
first list element satisfying `p` using `g`; `none` when no element matches
(`taskIndex === -1`). -/
def updateFirst (p : TaskItem → Bool) (g : TaskItem → TaskItem) : List TaskItem → Option (List TaskItem)
  | [] => none
  | t :: ts =>
    if p t then some (g t :: ts)
    else
      match updateFirst p g ts with
      | some ts' => some (t :: ts')
      | none => none

/-- `updateTask`: 400 when neither `text` nor `completed` is in the body, 400
when a supplied `text` trims to empty, 404 when no task has the id; otherwise
update the found task, write the file back and answer 200.  Returns the status
and the file contents afterwards (unchanged except on the 200 path, where
`writeTasks` persists the updated list). -/
def updateTask (now id : String) (text? : Option String) (completed? : Option Bool)
    (tasks : List TaskItem) : Nat × List TaskItem :=
  if text?.isNone ∧ completed?.isNone then
    (400, tasks)
  else if text?.any (fun s => s.trim = "") then
    (400, tasks)
  else
    match updateFirst (fun t => t.id == id) (applyUpdate now text? completed?) tasks with
    | none => (404, tasks)
    | some tasks' => (200, tasks')

/-! ## Fixtures for concrete witnesses -/

/-- Fixture: an uploaded (file-type) video owned by account 7. -/
def vFile : Video :=
  { id := 1, title := "demo", description := "", video_url := "/uploads/a.mp4",
    video_type := "file", user_id := 7 }

/-- Fixture: a link-type video owned by account 7. -/
def vLink : Video :=
  { id := 2, title := "ext", description := "",
    video_url := "https://example.com/v", video_type := "link", user_id := 7 }

/-- Fixture state: account 7 owns both fixture videos; the file blob is on
disk. -/
def st0 : St :=
  { users := [7], videos := [vFile, vLink], files := ["/uploads/a.mp4"] }

/-- Fixture state for the missing-blob scenario: account 7 owns one file-type
video whose blob is absent. -/
def st1 : St := { users := [7], videos := [vFile], files := [] }

/-- Fixture faults: none. -/
def f0 : Faults := { unlinkFails := [], commitFails := false }

/-- Fixture faults: the relational commit fails. -/
def fC : Faults := { unlinkFails := [], commitFails := true }

/-- Fixture parser that always fails (any file contents are corrupt). -/
def parseNone : String → Option (List TaskItem) := fun _ => none

/-- Fixture task with id `"a"`. -/
def t1 : TaskItem :=
  { id := "a", text := "one", completed := false, createdAt := "c1",
    updatedAt := "u1" }

/-- Fixture task with id `"b"`. -/
def t2 : TaskItem :=
  { id := "b", text := "two", completed := false, createdAt := "c2",
    updatedAt := "u2" }

/-! ## Helper lemmas about the blob-deletion loop -/

/-- Is the event a successful unlink? -/
def Ev.isUnlinked : Ev → Bool
  | .blobUnlinked _ => true
  | _ => false

/-- Number of successful blob unlinks recorded in a trace. -/
def unlinkedCount (tr : List Ev) : Nat := (tr.filter Ev.isUnlinked).length

theorem unlinkedCount_append (a b : List Ev) :
    unlinkedCount (a ++ b) = unlinkedCount a + unlinkedCount b := by
  simp [unlinkedCount, List.filter_append]

theorem length_filter_partition {α : Type} (p : α → Bool) (l : List α) :
    (l.filter p).length + (l.filter (fun a => !(p a))).length = l.length := by
  induction l with
  | nil => rfl
  | cons x xs ih => cases h : p x <;> simp [List.filter_cons, h] <;> omega

theorem deleteBlobForVideo_count (f : Faults) (v : Video) (files : List String) :
    (deleteBlobForVideo f v files).2.1 =
      unlinkedCount (deleteBlobForVideo f v files).2.2 := by
  unfold deleteBlobForVideo
  split_ifs <;> simp [unlinkedCount, Ev.isUnlinked]

theorem deleteBlobs_count (f : Faults) (vs : List Video) (files : List String) :
    (deleteBlobs f vs files).2.1 = unlinkedCount (deleteBlobs f vs files).2.2 := by
  induction vs generalizing files with
  | nil => rfl
  | cons v vs ih =>
    simp only [deleteBlobs, unlinkedCount_append]
    rw [← deleteBlobForVideo_count, ih]

theorem deleteBlobForVideo_count_le (f : Faults) (v : Video) (files : List String) :
    (deleteBlobForVideo f v files).2.1 ≤ 1 := by
  unfold deleteBlobForVideo; split_ifs <;> simp

theorem deleteBlobs_count_le (f : Faults) (vs : List Video) (files : List String) :
    (deleteBlobs f vs files).2.1 ≤ vs.length := by
  induction vs generalizing files with
  | nil => simp [deleteBlobs]
  | cons v vs ih =>
    have h1 := deleteBlobForVideo_count_le f v files
    have h2 := ih ((deleteBlobForVideo f v files).1)
    simp only [deleteBlobs, List.length_cons]
    omega

theorem deleteBlobForVideo_events (f : Faults) (v : Video) (files : List String) :
    ∀ e ∈ (deleteBlobForVideo f v files).2.2, e.isBlobEv = true := by
  unfold deleteBlobForVideo
  split_ifs <;> intro e he <;> cases e <;> simp_all [Ev.isBlobEv]

theorem deleteBlobs_events (f : Faults) (vs : List Video) (files : List String) :
    ∀ e ∈ (deleteBlobs f vs files).2.2, e.isBlobEv = true := by
  induction vs generalizing files with
  | nil => simp [deleteBlobs]
  | cons v vs ih =>
    intro e he
    simp only [deleteBlobs, List.mem_append] at he
    cases he with
    | inl h => exact deleteBlobForVideo_events f v files e h
    | inr h => exact ih _ e h

theorem deleteBlobForVideo_files_subset (f : Faults) (v : Video)
    (files : List String) :
    ∀ l ∈ (deleteBlobForVideo f v files).1, l ∈ files := by
  unfold deleteBlobForVideo
  split_ifs <;> intro l hl
  · exact hl
  · exact (List.mem_filter.mp hl).1
  · exact hl
  · exact hl

theorem deleteBlobs_files_subset (f : Faults) (vs : List Video)
    (files : List String) :
    ∀ l ∈ (deleteBlobs f vs files).1, l ∈ files := by
  induction vs generalizing files with
  | nil => intro l hl; exact hl
  | cons v vs ih =>
    intro l hl
    simp only [deleteBlobs] at hl
    exact deleteBlobForVideo_files_subset f v files l
      (ih ((deleteBlobForVideo f v files).1) l hl)

theorem deleteBlobForVideo_unlinked (f : Faults) (v : Video)
    (files : List String) (l : String)
    (h : Ev.blobUnlinked l ∈ (deleteBlobForVideo f v files).2.2) :
    l ∉ (deleteBlobForVideo f v files).1 := by
  unfold deleteBlobForVideo at h ⊢
  split_ifs at h ⊢ <;> simp_all

theorem deleteBlobs_unlinked (f : Faults) (vs : List Video)
    (files : List String) (l : String)
    (h : Ev.blobUnlinked l ∈ (deleteBlobs f vs files).2.2) :
    l ∉ (deleteBlobs f vs files).1 := by
  induction vs generalizing files with
  | nil => simp [deleteBlobs] at h
  | cons v vs ih =>
    simp only [deleteBlobs, List.mem_append] at h ⊢
    cases h with
    | inl h1 =>
      intro hmem
      exact deleteBlobForVideo_unlinked f v files l h1
        (deleteBlobs_files_subset f vs _ l hmem)
    | inr h2 => exact ih _ h2

theorem deleteBlobForVideo_blobDelete (f : Faults) (v : Video)
    (files : List String) (l : String)
    (h : Ev.blobDelete l ∈ (deleteBlobForVideo f v files).2.2) :
    v.video_type = "file" ∧ v.video_url = l ∧ v.video_url ≠ "" := by
  unfold deleteBlobForVideo at h
  split_ifs at h <;> simp_all

theorem deleteBlobs_blobDelete (f : Faults) (vs : List Video)
    (files : List String) (l : String)
    (h : Ev.blobDelete l ∈ (deleteBlobs f vs files).2.2) :
    ∃ v, v ∈ vs ∧ v.video_type = "file" ∧ v.video_url = l ∧ v.video_url ≠ "" := by
  induction vs generalizing files with
  | nil => simp [deleteBlobs] at h
  | cons v vs ih =>
    simp only [deleteBlobs, List.mem_append] at h
    cases h with
    | inl h1 =>
      obtain ⟨ht, hu, hn⟩ := deleteBlobForVideo_blobDelete f v files l h1
      exact ⟨v, List.mem_cons_self v vs, ht, hu, hn⟩
    | inr h2 =>
      obtain ⟨w, hw, hrest⟩ := ih _ h2
      exact ⟨w, List.mem_cons_of_mem v hw, hrest⟩

/-! ## Claims -/

/-- C1: `DeleteAccount` is atomic w.r.t. the relational store: when the
account-row delete affects zero rows (the actor's account row is absent,
e.g. deleted concurrently), the unit of work is rolled back — no video rows
owned by the actor are removed and the account table is unchanged — and the
handler reports 404 (`NotFound`). -/
theorem deleteAccount_absent_atomic (f : Faults) (u : Nat) (σ : St)
    (h : u ∉ σ.users) :
    (deleteAccount f u σ).1.status = 404 ∧
    (deleteAccount f u σ).2.1.users = σ.users ∧
    (deleteAccount f u σ).2.1.videos = σ.videos := by
  have hfilter : σ.users.filter (fun x => x == u) = [] := by
    rw [List.filter_eq_nil_iff]
    intro a ha
    simp only [beq_iff_eq]
    exact fun hau => h (hau ▸ ha)
  simp [deleteAccount, hfilter]

/-- Witness for C1: deleting account 9, which does not exist in `st0`. -/
theorem deleteAccount_absent_atomic_witness :
    (deleteAccount f0 9 st0).1.status = 404 ∧
    (deleteAccount f0 9 st0).2.1.users = st0.users ∧
    (deleteAccount f0 9 st0).2.1.videos = st0.videos :=
  deleteAccount_absent_atomic f0 9 st0 (by decide)

/-- C5: `DeleteVideo` on a video whose owner differs from the actor answers
403 (`Forbidden`) and changes nothing: the returned state is the input state
and no events occur. -/
theorem deleteVideo_forbidden (f : Faults) (u vid : Nat) (σ : St) (v : Video)
    (hv : findVideo σ.videos vid = some v) (hown : v.user_id ≠ u) :
    deleteVideo f u vid σ = ({ status := 403 }, σ, []) := by
  simp [deleteVideo, hv, hown]

/-- Witness for C5: actor 9 deleting video 1 owned by account 7. -/
theorem deleteVideo_forbidden_witness :
    deleteVideo f0 9 1 st0 = ({ status := 403 }, st0, []) :=
  deleteVideo_forbidden f0 9 1 st0 vFile (by decide) (by decide)

/-- C4: for a file-type video owned by the actor (with a nonempty locator, as
the upload endpoint guarantees, and no unlink I/O fault on that locator), a
successful `DeleteVideo` leaves no video row with that id and no blob at the
video's locator — whether or not the blob existed before the call. -/
theorem deleteVideo_file_cascade (f : Faults) (u vid : Nat) (σ : St) (v : Video)
    (hv : findVideo σ.videos vid = some v) (hown : v.user_id = u)
    (htype : v.video_type = "file") (hurl : v.video_url ≠ "")
    (hio : v.video_url ∉ f.unlinkFails) :
    (deleteVideo f u vid σ).1.status = 200 ∧
    (∀ w ∈ (deleteVideo f u vid σ).2.1.videos, w.id ≠ vid) ∧
    v.video_url ∉ (deleteVideo f u vid σ).2.1.files := by
  have hv' : σ.videos.find? (fun w => w.id == vid) = some v := hv
  have hmem : v ∈ σ.videos := List.mem_of_find?_eq_some hv'
  have hpred : (v.id == vid) = true := by simpa using List.find?_some hv'
  have hchanges : (σ.videos.filter (fun w => w.id == vid)).length ≠ 0 := by
    have hvin : v ∈ σ.videos.filter (fun w => w.id == vid) :=
      List.mem_filter.mpr ⟨hmem, hpred⟩
    intro hlen
    rw [List.length_eq_zero] at hlen
    simp [hlen] at hvin
  have hblob : v.video_url ∉ (deleteBlobForVideo f v σ.files).1 := by
    unfold deleteBlobForVideo
    split_ifs with h1 h2
    · simp [List.mem_filter]
    · exact h2
    · exact absurd ⟨htype, hurl⟩ h1
  have hres : deleteVideo f u vid σ =
      ({ status := 200 },
       { σ with videos := σ.videos.filter (fun w => !(w.id == vid)),
                files := (deleteBlobForVideo f v σ.files).1 },
       (deleteBlobForVideo f v σ.files).2.2) := by
    simp [deleteVideo, hv, hown, hchanges]
  rw [hres]
  refine ⟨rfl, ?_, hblob⟩
  intro w hw
  simpa using (List.mem_filter.mp hw).2

/-- Witness for C4: owner 7 deleting the file-type video 1 in `st0`. -/
theorem deleteVideo_file_cascade_witness :
    (deleteVideo f0 7 1 st0).1.status = 200 ∧
    (∀ w ∈ (deleteVideo f0 7 1 st0).2.1.videos, w.id ≠ 1) ∧
    vFile.video_url ∉ (deleteVideo f0 7 1 st0).2.1.files :=
  deleteVideo_file_cascade f0 7 1 st0 vFile (by decide) (by decide)
    (by decide) (by decide) (by decide)

/-- C8: `DeleteVideo` is idempotent at the state level: after a successful
first call, the same call on the resulting state answers 404 (`NotFound`),
returns that state unchanged and performs no side effects. -/
theorem deleteVideo_idempotent (f : Faults) (u vid : Nat) (σ : St)
    (h : (deleteVideo f u vid σ).1.status = 200) :
    deleteVideo f u vid (deleteVideo f u vid σ).2.1 =
      ({ status := 404 }, (deleteVideo f u vid σ).2.1, []) := by
  obtain ⟨v, hv, hown, hch⟩ :
      ∃ v, findVideo σ.videos vid = some v ∧ ¬ v.user_id ≠ u ∧
        (σ.videos.filter (fun w => w.id == vid)).length ≠ 0 := by
    unfold deleteVideo at h
    cases hv : findVideo σ.videos vid with
    | none => rw [hv] at h; simp at h
    | some v =>
      rw [hv] at h
      by_cases hown : v.user_id ≠ u
      · simp [hown] at h
      · by_cases hch : (σ.videos.filter (fun w => w.id == vid)).length = 0
        · simp [hown, hch] at h
        · exact ⟨v, rfl, hown, hch⟩
  have hres : (deleteVideo f u vid σ).2.1 =
      { σ with videos := σ.videos.filter (fun w => !(w.id == vid)),
               files := (deleteBlobForVideo f v σ.files).1 } := by
    simp [deleteVideo, hv, hown, hch]
  have hfind :
      findVideo (σ.videos.filter (fun w => !(w.id == vid))) vid = none := by
    rw [findVideo, List.find?_eq_none]
    intro w hw
    simpa using (List.mem_filter.mp hw).2
  rw [hres]
  simp [deleteVideo, hfind]

/-- Witness for C8: deleting video 1 of `st0` twice. -/
theorem deleteVideo_idempotent_witness :
    deleteVideo f0 7 1 (deleteVideo f0 7 1 st0).2.1 =
      ({ status := 404 }, (deleteVideo f0 7 1 st0).2.1, []) :=
  deleteVideo_idempotent f0 7 1 st0 (by decide)

/-- An account id present in the table yields a nonzero row count for
`DELETE FROM users WHERE id = ?`. -/
theorem users_filter_ne_zero {u : Nat} {l : List Nat} (hu : u ∈ l) :
    (l.filter (fun x => x == u)).length ≠ 0 := by
  have hmem : u ∈ l.filter (fun x => x == u) :=
    List.mem_filter.mpr ⟨hu, by simp⟩
  intro hlen
  rw [List.length_eq_zero] at hlen
  simp [hlen] at hmem

/-- C2: on every successful `DeleteAccount` (status 200), `videosDeleted`
equals the number of the actor's video rows — exactly the rows the relational
delete removes (the remaining table is the complement, and the two lengths
add up to the original table) — and `filesDeleted` equals the number of blob
deletions that succeeded (the `blobUnlinked` events of the invocation). -/
theorem deleteAccount_success_counts (f : Faults) (u : Nat) (σ : St)
    (h : (deleteAccount f u σ).1.status = 200) :
    (deleteAccount f u σ).1.videosDeleted =
      some ((σ.videos.filter (fun v => v.user_id == u)).length) ∧
    (deleteAccount f u σ).2.1.videos =
      σ.videos.filter (fun v => !(v.user_id == u)) ∧
    (σ.videos.filter (fun v => v.user_id == u)).length +
      (deleteAccount f u σ).2.1.videos.length = σ.videos.length ∧
    (deleteAccount f u σ).1.filesDeleted =
      some (unlinkedCount (deleteAccount f u σ).2.2) := by
  by_cases hch : (σ.users.filter (fun x => x == u)).length = 0
  · simp [deleteAccount, hch] at h
  · by_cases hcf : f.commitFails
    · simp [deleteAccount, hch, hcf] at h
    · have hc := deleteBlobs_count f (σ.videos.filter (fun v => v.user_id == u)) σ.files
      refine ⟨?_, ?_, ?_, ?_⟩
      · simp [deleteAccount, hch, hcf]
      · simp [deleteAccount, hch, hcf]
      · have hpart := length_filter_partition (fun v => v.user_id == u) σ.videos
        simp only [deleteAccount]
        simp only [if_neg hch, if_neg hcf]
        simpa using hpart
      · simp [deleteAccount, hch, hcf, unlinkedCount_append, hc]
        simp [unlinkedCount, Ev.isUnlinked]

/-- Witness for C2: account 7 of `st0` is deleted successfully. -/
theorem deleteAccount_success_counts_witness :
    (deleteAccount f0 7 st0).1.videosDeleted =
      some ((st0.videos.filter (fun v => v.user_id == 7)).length) ∧
    (deleteAccount f0 7 st0).2.1.videos =
      st0.videos.filter (fun v => !(v.user_id == 7)) ∧
    (st0.videos.filter (fun v => v.user_id == 7)).length +
      (deleteAccount f0 7 st0).2.1.videos.length = st0.videos.length ∧
    (deleteAccount f0 7 st0).1.filesDeleted =
      some (unlinkedCount (deleteAccount f0 7 st0).2.2) :=
  deleteAccount_success_counts f0 7 st0 (by decide)

/-- C3: in every `DeleteAccount` invocation, blob deletions occur after the
unit of work opens (`BEGIN`) and before the video-row delete, the account-row
delete and any commit; and when the commit fails (account present), the
handler answers 500 (`TransactionFailed`), the rollback restores both
relational tables, while blobs already unlinked stay deleted. -/
theorem deleteAccount_blob_order_commit_failure (f : Faults) (u : Nat) (σ : St)
    (hcf : f.commitFails = true) (hu : u ∈ σ.users) :
    (∀ (g : Faults) (w : Nat) (τ : St), ∃ blobTr rest,
        (deleteAccount g w τ).2.2 =
          [Ev.beginTx, Ev.fetchVideos w] ++ blobTr ++
            ([Ev.deleteVideoRows w, Ev.deleteUserRow w] ++ rest) ∧
        (∀ e ∈ blobTr, e.isBlobEv = true) ∧
        (∀ e ∈ rest, e.isBlobEv = false)) ∧
    (deleteAccount f u σ).1.status = 500 ∧
    (deleteAccount f u σ).2.1.users = σ.users ∧
    (deleteAccount f u σ).2.1.videos = σ.videos ∧
    (∀ l, Ev.blobUnlinked l ∈ (deleteAccount f u σ).2.2 →
        l ∉ (deleteAccount f u σ).2.1.files) := by
  have hne := users_filter_ne_zero hu
  refine ⟨?_, ?_, ?_, ?_, ?_⟩
  · intro g w τ
    refine ⟨(deleteBlobs g (τ.videos.filter (fun v => v.user_id == w)) τ.files).2.2,
      ?_⟩
    unfold deleteAccount
    by_cases hA : (τ.users.filter (fun x => x == w)).length = 0
    · rw [if_pos hA]
      exact ⟨[Ev.rollback], by simp,
        deleteBlobs_events g _ τ.files, by decide⟩
    · rw [if_neg hA]
      by_cases hB : g.commitFails
      · rw [if_pos hB]
        exact ⟨[Ev.commit, Ev.rollback], by simp,
          deleteBlobs_events g _ τ.files, by decide⟩
      · rw [if_neg hB]
        exact ⟨[Ev.commit], by simp,
          deleteBlobs_events g _ τ.files, by decide⟩
  · simp [deleteAccount, hne, hcf]
  · simp [deleteAccount, hne, hcf]
  · simp [deleteAccount, hne, hcf]
  · intro l hl
    simp only [deleteAccount, if_neg hne, if_pos hcf] at hl ⊢
    simp [List.mem_append] at hl
    exact deleteBlobs_unlinked f _ σ.files l hl

/-- Witness for C3: deleting account 7 of `st0` under a failing commit. -/
theorem deleteAccount_blob_order_commit_failure_witness :
    (deleteAccount fC 7 st0).1.status = 500 ∧
    (deleteAccount fC 7 st0).2.1.videos = st0.videos := by
  have h := deleteAccount_blob_order_commit_failure fC 7 st0 (by decide) (by decide)
  exact ⟨h.2.1, h.2.2.2.1⟩

/-- C6: the filesystem delete is never invoked for non-file videos: a
`DeleteVideo` whose fetched video has a storage kind other than `file`
performs no blob-store events at all, and every blob-removal attempt
(`blobDelete` event) of any `DeleteAccount` belongs to a file-type video
owned by the actor — never to a link video's locator. -/
theorem no_blob_removal_for_link (f : Faults) (u vid : Nat) (σ : St) (v : Video)
    (hv : findVideo σ.videos vid = some v) (ht : v.video_type ≠ "file") :
    (deleteVideo f u vid σ).2.2 = [] ∧
    (∀ (g : Faults) (w : Nat) (τ : St) (l : String),
        Ev.blobDelete l ∈ (deleteAccount g w τ).2.2 →
        ∃ x, x ∈ τ.videos ∧ x.user_id = w ∧ x.video_type = "file" ∧
          x.video_url = l) := by
  constructor
  · have hblob : deleteBlobForVideo f v σ.files = (σ.files, 0, []) := by
      unfold deleteBlobForVideo
      rw [if_neg]
      intro hc
      exact ht hc.1
    by_cases hown : v.user_id ≠ u
    · simp [deleteVideo, hv, hown]
    · by_cases hch : (σ.videos.filter (fun w => w.id == vid)).length = 0
      · simp [deleteVideo, hv, hown, hch, hblob]
      · simp [deleteVideo, hv, hown, hch, hblob]
  · intro g w τ l hl
    have key : Ev.blobDelete l ∈
        (deleteBlobs g (τ.videos.filter (fun x => x.user_id == w)) τ.files).2.2 →
        ∃ x, x ∈ τ.videos ∧ x.user_id = w ∧ x.video_type = "file" ∧
          x.video_url = l := by
      intro hm
      obtain ⟨x, hx, hxt, hxu, _⟩ := deleteBlobs_blobDelete g _ τ.files l hm
      obtain ⟨hxmem, hxeq⟩ := List.mem_filter.mp hx
      exact ⟨x, hxmem, by simpa using hxeq, hxt, hxu⟩
    unfold deleteAccount at hl
    by_cases hA : (τ.users.filter (fun x => x == w)).length = 0
    · rw [if_pos hA] at hl
      simp [List.mem_append] at hl
      exact key hl
    · rw [if_neg hA] at hl
      by_cases hB : g.commitFails
      · rw [if_pos hB] at hl
        simp [List.mem_append] at hl
        exact key hl
      · rw [if_neg hB] at hl
        simp [List.mem_append] at hl
        exact key hl

/-- Witness for C6: owner 7 deleting the link-type video 2 of `st0` records
no blob-store events. -/
theorem no_blob_removal_for_link_witness :
    (deleteVideo f0 7 2 st0).2.2 = [] :=
  (no_blob_removal_for_link f0 7 2 st0 vLink (by decide) (by decide)).1

/-- C7: a missing blob never makes `DeleteAccount` fail: when the actor owns
exactly one file-type video whose blob is absent on disk (and the commit does
not fault), the handler answers 200 with `videosDeleted = 1` and
`filesDeleted = 0`; and in general `filesDeleted` never exceeds
`videosDeleted` on any invocation that reports counts. -/
theorem deleteAccount_missing_blob (f : Faults) (u : Nat) (σ : St) (v : Video)
    (hvids : σ.videos.filter (fun w => w.user_id == u) = [v])
    (htype : v.video_type = "file")
    (hmiss : v.video_url ∉ σ.files)
    (hu : u ∈ σ.users) (hcf : f.commitFails = false) :
    (deleteAccount f u σ).1.status = 200 ∧
    (deleteAccount f u σ).1.videosDeleted = some 1 ∧
    (deleteAccount f u σ).1.filesDeleted = some 0 ∧
    (∀ (g : Faults) (w : Nat) (τ : St) (n m : Nat),
        (deleteAccount g w τ).1.videosDeleted = some n →
        (deleteAccount g w τ).1.filesDeleted = some m → m ≤ n) := by
  have hne := users_filter_ne_zero hu
  have hstep : (deleteBlobForVideo f v σ.files).1 = σ.files ∧
      (deleteBlobForVideo f v σ.files).2.1 = 0 := by
    unfold deleteBlobForVideo
    split_ifs <;> simp_all
  have h1 := hstep.1
  have h2 := hstep.2
  refine ⟨?_, ?_, ?_, ?_⟩
  · simp [deleteAccount, hne, hcf]
  · simp [deleteAccount, hne, hcf, hvids]
  · simp [deleteAccount, hne, hcf, hvids, deleteBlobs, h2]
  · intro g w τ n m hn hm
    unfold deleteAccount at hn hm
    by_cases hA : (τ.users.filter (fun x => x == w)).length = 0
    · rw [if_pos hA] at hn
      simp at hn
    · rw [if_neg hA] at hn hm
      by_cases hB : g.commitFails
      · rw [if_pos hB] at hn
        simp at hn
      · rw [if_neg hB] at hn hm
        simp at hn hm
        have hle := deleteBlobs_count_le g
          (τ.videos.filter (fun x => x.user_id == w)) τ.files
        omega

/-- Witness for C7: account 7 of `st1` owns one file-type video whose blob is
missing. -/
theorem deleteAccount_missing_blob_witness :
    (deleteAccount f0 7 st1).1.status = 200 ∧
    (deleteAccount f0 7 st1).1.videosDeleted = some 1 ∧
    (deleteAccount f0 7 st1).1.filesDeleted = some 0 := by
  have h := deleteAccount_missing_blob f0 7 st1 vFile (by decide) (by decide)
    (by decide) (by decide) (by decide)
  exact ⟨h.1, h.2.1, h.2.2.1⟩

/-- C9: `getTasks` always answers 200 with a JSON array; when the tasks file
is absent or its contents fail to parse, `readTasks` has swallowed the error
and returned the empty list, so the body is the empty array — the handler's
500 branch is unreachable from such file states. -/
theorem getTasks_never_500 (parse : String → Option (List TaskItem))
    (file : TasksFile) :
    (getTasks parse file).1 = 200 ∧
    ((file = TasksFile.absent ∨
        ∃ raw, file = TasksFile.content raw ∧ parse raw = none) →
      (getTasks parse file).2 = []) := by
  refine ⟨rfl, ?_⟩
  rintro (rfl | ⟨raw, rfl, hp⟩)
  · rfl
  · simp [getTasks, readTasks, hp]

/-- Witness for C9: a file whose contents the parser rejects. -/
theorem getTasks_never_500_witness :
    (getTasks parseNone (TasksFile.content "not json")).1 = 200 ∧
    (getTasks parseNone (TasksFile.content "not json")).2 = [] := by
  have h := getTasks_never_500 parseNone (TasksFile.content "not json")
  exact ⟨h.1, h.2 (Or.inr ⟨"not json", rfl, rfl⟩)⟩

/-- `findIndex`-style update of the first matching task in a split list. -/
theorem updateFirst_append (p : TaskItem → Bool) (g : TaskItem → TaskItem)
    (l₁ l₂ : List TaskItem) (t : TaskItem)
    (h₁ : ∀ x ∈ l₁, p x = false) (ht : p t = true) :
    updateFirst p g (l₁ ++ t :: l₂) = some (l₁ ++ g t :: l₂) := by
  induction l₁ with
  | nil => simp [updateFirst, ht]
  | cons x xs ih =>
    have hx : p x = false := h₁ x (List.mem_cons_self x xs)
    simp [updateFirst, hx,
      ih (fun y hy => h₁ y (List.mem_cons_of_mem x hy))]

/-- C10: `updateTask` on an existing task id (the first task with that id,
other tasks having different ids) modifies only the supplied fields — `text`
stored trimmed, `completed` as given — plus `updatedAt`; the task's `id` and
`createdAt` and every other task in the file are unchanged; and when neither
field is supplied it answers 400 with the file unchanged. -/
theorem updateTask_frame (now id : String) (text? : Option String)
    (completed? : Option Bool) (l₁ l₂ : List TaskItem) (t : TaskItem)
    (hfirst : ∀ x ∈ l₁, x.id ≠ id) (hid : t.id = id)
    (hsome : text?.isSome ∨ completed?.isSome)
    (htext : ∀ s, text? = some s → s.trim ≠ "") :
    updateTask now id text? completed? (l₁ ++ t :: l₂) =
      (200, l₁ ++ applyUpdate now text? completed? t :: l₂) ∧
    (applyUpdate now text? completed? t).id = t.id ∧
    (applyUpdate now text? completed? t).createdAt = t.createdAt ∧
    (applyUpdate now text? completed? t).updatedAt = now ∧
    (∀ s, text? = some s → (applyUpdate now text? completed? t).text = s.trim) ∧
    (text? = none → (applyUpdate now text? completed? t).text = t.text) ∧
    (∀ b, completed? = some b →
      (applyUpdate now text? completed? t).completed = b) ∧
    (completed? = none →
      (applyUpdate now text? completed? t).completed = t.completed) ∧
    updateTask now id none none (l₁ ++ t :: l₂) = (400, l₁ ++ t :: l₂) := by
  have hup : updateFirst (fun x => x.id == id) (applyUpdate now text? completed?)
      (l₁ ++ t :: l₂) = some (l₁ ++ applyUpdate now text? completed? t :: l₂) :=
    updateFirst_append _ _ l₁ l₂ t
      (fun x hx => by simp [hfirst x hx]) (by simp [hid])
  have hc1 : ¬ (text?.isNone ∧ completed?.isNone) := by
    intro hc
    rcases hsome with h | h
    · rw [Option.isSome_iff_ne_none] at h
      exact h (Option.isNone_iff_eq_none.mp hc.1)
    · rw [Option.isSome_iff_ne_none] at h
      exact h (Option.isNone_iff_eq_none.mp hc.2)
  have hc2 : ¬ ((text?.any fun s => s.trim = "") = true) := by
    cases hcase : text? with
    | none => simp
    | some s =>
      simp only [Option.any_some, decide_eq_true_eq]
      exact htext s hcase
  refine ⟨?_, ?_, ?_, ?_, ?_, ?_, ?_, ?_, ?_⟩
  · unfold updateTask
    rw [if_neg hc1, if_neg hc2, hup]
  · cases text? <;> cases completed? <;> rfl
  · cases text? <;> cases completed? <;> rfl
  · cases text? <;> cases completed? <;> rfl
  · intro s hs
    subst hs
    cases completed? <;> rfl
  · intro hn
    subst hn
    cases completed? <;> rfl
  · intro b hb
    subst hb
    cases text? <;> rfl
  · intro hn
    subst hn
    cases text? <;> rfl
  · simp [updateTask]

/-- Witness for C10: marking task `"b"`, stored behind task `"a"`, as
completed. -/
theorem updateTask_frame_witness :
    updateTask "now" "b" none (some true) ([t1] ++ t2 :: []) =
      (200, [t1] ++ applyUpdate "now" none (some true) t2 :: []) ∧
    (applyUpdate "now" none (some true) t2).id = t2.id ∧
    (applyUpdate "now" none (some true) t2).createdAt = t2.createdAt ∧
    updateTask "now" "b" none none ([t1] ++ t2 :: []) = (400, [t1] ++ t2 :: []) := by
  have h := updateTask_frame "now" "b" none (some true) [t1] [] t2
    (by decide) (by decide) (Or.inr (by decide))
    (by intro s hs; cases hs)
  exact ⟨h.1, h.2.1, h.2.2.1, h.2.2.2.2.2.2.2.2⟩
